import Mathlib

/-!
# Verification of the pimc move subsystem and parameter layer

A shallow embedding of the move subsystem declared in `src/include/move.h`
and the parameter handling of `src/include/setup.h` of the pimc repository.
The repository sources provide the class declarations, inline accessors and
constructor default arguments; the bodies of the concrete `attemptMove`
implementations live in a translation unit that is not part of the sources,
so those operations are modelled from the specification (each such
definition says so in its doc comment).

Machine doubles are modelled as rationals; per-instance `uint32` counters as
naturals (no overflow behaviour is claimed by the spec).
-/

namespace PIMC

/-- A fixed-dimension real vector (`dVec` in the sources), modelled as a list
of rationals; `NDIM` is the length. -/
abbrev dVec := List ℚ

/-- The ensemble tag from `common.h`, used by `MoveBase::operateOnConfig`:
which configurations a move operates on. -/
inductive Ensemble
  | ANY
  | DIAGONAL
  | OFFDIAGONAL
deriving DecidableEq

/-- The worldline container (`Path`), out of scope for the move subsystem
(spec section 1) and consumed through a narrow interface (spec section 6):
bead positions, the `next`/`prev` link graph, the bead-on flags, and the
worm endpoints.  Beads are indexed by a flat natural number; `none` plays
the role of the `NONE` sentinel `beadLocator`. -/
structure Path where
  pos : List dVec
  nxt : List (Option Nat)
  prv : List (Option Nat)
  beadOn : List Bool
  wormHead : Option Nat
  wormTail : Option Nat
deriving DecidableEq

/-- The sector of a configuration: OFFDIAGONAL when the worm exists
(spec section 3, worm state), DIAGONAL otherwise. -/
def sectorOf (p : Path) : Ensemble :=
  if p.wormHead.isSome then .OFFDIAGONAL else .DIAGONAL

/-- Whether a move with the given `operateOnConfig` tag may operate in the
given sector (spec section 3, ensemble tag). -/
def sectorOK (c : Ensemble) (s : Ensemble) : Bool :=
  match c with
  | .ANY => true
  | .DIAGONAL => decide (s = .DIAGONAL)
  | .OFFDIAGONAL => decide (s = .OFFDIAGONAL)

/-- One journalled write to the `Path`, recording the location, the value
saved at entry (the scratch buffers `originalPos` / `oldBeadOn` / saved
links of spec section 3), and the proposed new value. -/
inductive Upd
  | setPos (i : Nat) (old new : dVec)
  | setNxt (i : Nat) (old new : Option Nat)
  | setPrv (i : Nat) (old new : Option Nat)
  | setOn (i : Nat) (old new : Bool)
  | setHead (old new : Option Nat)
  | setTail (old new : Option Nat)
deriving DecidableEq

/-- The location a journalled write touches. -/
inductive Loc
  | pos (i : Nat)
  | nxt (i : Nat)
  | prv (i : Nat)
  | onf (i : Nat)
  | whead
  | wtail
deriving DecidableEq

/-- The location of a journalled write. -/
def locOf : Upd → Loc
  | .setPos i _ _ => .pos i
  | .setNxt i _ _ => .nxt i
  | .setPrv i _ _ => .prv i
  | .setOn i _ _ => .onf i
  | .setHead _ _ => .whead
  | .setTail _ _ => .wtail

/-- Apply a journalled write (the tentative mutation of spec section 4.3,
step 3). -/
def applyUpd (p : Path) : Upd → Path
  | .setPos i _ n => { p with pos := p.pos.set i n }
  | .setNxt i _ n => { p with nxt := p.nxt.set i n }
  | .setPrv i _ n => { p with prv := p.prv.set i n }
  | .setOn i _ n => { p with beadOn := p.beadOn.set i n }
  | .setHead _ n => { p with wormHead := n }
  | .setTail _ n => { p with wormTail := n }

/-- Revert a journalled write by writing back the saved entry value
(spec section 4.3, step 5: restore all saved positions, links, worm
endpoints and bead-on flags). -/
def undoUpd (p : Path) : Upd → Path
  | .setPos i o _ => { p with pos := p.pos.set i o }
  | .setNxt i o _ => { p with nxt := p.nxt.set i o }
  | .setPrv i o _ => { p with prv := p.prv.set i o }
  | .setOn i o _ => { p with beadOn := p.beadOn.set i o }
  | .setHead o _ => { p with wormHead := o }
  | .setTail o _ => { p with wormTail := o }

/-- The saved value of a journalled write is the value the path holds at its
location (the original state recorded in spec section 4.3, step 2). -/
def savedOK (p : Path) : Upd → Prop
  | .setPos i o _ => p.pos[i]? = some o
  | .setNxt i o _ => p.nxt[i]? = some o
  | .setPrv i o _ => p.prv[i]? = some o
  | .setOn i o _ => p.beadOn[i]? = some o
  | .setHead o _ => p.wormHead = o
  | .setTail o _ => p.wormTail = o

/-- A well-formed journal for an entry path: every entry saved the entry
value at its location, and no location is touched twice (each bead touched
is saved once, in order of touch; spec section 3). -/
def Wf (p : Path) (j : List Upd) : Prop :=
  (∀ u ∈ j, savedOK p u) ∧ (j.map locOf).Nodup

/-- Apply a whole journal in order. -/
def applyJournal (p : Path) (j : List Upd) : Path :=
  j.foldl applyUpd p

/-- Undo a whole journal, restoring saved values in reverse order of
application. -/
def undoJournal (p : Path) : List Upd → Path
  | [] => p
  | u :: us => undoUpd (undoJournal p us) u

theorem setGetSame {α : Type} :
    ∀ (l : List α) (i : Nat) (a : α), l[i]? = some a → l.set i a = l := by
  intro l
  induction l with
  | nil => intro i a h; cases i <;> simp at h
  | cons x xs ih =>
      intro i a h
      cases i with
      | zero => simp at h; simp [h]
      | succ n => simp at h; simp [List.set, ih n a h]

theorem undoUpd_self (p : Path) (u : Upd) (h : savedOK p u) : undoUpd p u = p := by
  cases p
  cases u <;> simp only [savedOK] at h <;>
    first
      | simp [undoUpd, setGetSame _ _ _ h]
      | simp [undoUpd, h]

theorem undoUpd_applyUpd (p : Path) (u : Upd) (h : savedOK p u) :
    undoUpd (applyUpd p u) u = p := by
  cases p
  cases u <;> simp only [savedOK] at h <;>
    first
      | simp [undoUpd, applyUpd, List.set_set, setGetSame _ _ _ h]
      | simp [undoUpd, applyUpd, h]

theorem savedOK_applyUpd_of_ne (p : Path) (u v : Upd) (hne : locOf u ≠ locOf v)
    (h : savedOK p v) : savedOK (applyUpd p u) v := by
  cases u <;> cases v <;>
    simp [locOf] at hne <;>
    simp only [savedOK, applyUpd] at h ⊢ <;>
    first
      | exact h
      | rw [List.getElem?_set_ne hne]; exact h

theorem undoJournal_self (p : Path) :
    ∀ j : List Upd, (∀ u ∈ j, savedOK p u) → undoJournal p j = p := by
  intro j
  induction j with
  | nil => intro _; rfl
  | cons u us ih =>
      intro h
      have hus : undoJournal p us = p := ih (fun v hv => h v (List.mem_cons_of_mem u hv))
      simp [undoJournal, hus, undoUpd_self p u (h u (List.mem_cons_self u us))]

theorem undoJournal_applyJournal (p : Path) :
    ∀ j : List Upd, Wf p j → undoJournal (applyJournal p j) j = p := by
  intro j
  induction j generalizing p with
  | nil => intro _; rfl
  | cons u us ih =>
      intro h
      obtain ⟨hsave, hnodup⟩ := h
      have husave : savedOK p u := hsave u (List.mem_cons_self u us)
      have hnd : ∀ v ∈ us, locOf v ≠ locOf u := by
        simp [List.map] at hnodup
        exact hnodup.1
      have hwf2 : Wf (applyUpd p u) us := by
        constructor
        · intro v hv
          exact savedOK_applyUpd_of_ne p u v (fun hEq => hnd v hv hEq.symm)
            (hsave v (List.mem_cons_of_mem u hv))
        · simp [List.map] at hnodup
          exact hnodup.2
      have hstep : applyJournal p (u :: us) = applyJournal (applyUpd p u) us := rfl
      calc undoJournal (applyJournal p (u :: us)) (u :: us)
          = undoUpd (undoJournal (applyJournal (applyUpd p u) us) us) u := by
            rw [hstep]; rfl
        _ = undoUpd (applyUpd p u) u := by rw [ih (applyUpd p u) hwf2]
        _ = p := undoUpd_applyUpd p u husave

instance savedOKDecidable (p : Path) (u : Upd) : Decidable (savedOK p u) := by
  cases u <;> simp only [savedOK] <;> infer_instance

instance wfDecidable (p : Path) (j : List Upd) : Decidable (Wf p j) := by
  simp only [Wf]
  infer_instance

/-- The statistics of `MoveBase`: per-instance counters `numAccepted` /
`numAttempted`, the process-wide statics `totAccepted` / `totAttempted`
(move.h lines 86-92), and the level-resolved arrays (move.h lines 94-95). -/
structure Counters where
  numAccepted : Nat
  numAttempted : Nat
  totAccepted : Nat
  totAttempted : Nat
  numAcceptedLevel : List Nat
  numAttemptedLevel : List Nat
deriving DecidableEq

/-- A concrete move, reduced to what the `MoveBase::attemptMove` scaffold of
spec section 4.3 consumes: its `operateOnConfig` tag, its validity guard
(insufficient slices, endpoints too close, zero proposal normalization,
excess winding), and its proposal: the journalled tentative mutation
together with the Metropolis accept decision (the RNG draws are folded into
the proposal, which is deterministic for a fixed RNG state; spec
section 5). -/
structure MoveDef where
  operateOnConfig : Ensemble
  guard : Path → Bool
  propose : Path → List Upd × Bool

/-- The observable outcome of one `attemptMove` call: the returned flag, the
path, the updated counters, and the scratch journal retained by the move
instance (used by a forced `undoMove`). -/
structure MoveResult where
  accepted : Bool
  path : Path
  counters : Counters
  journal : List Upd
deriving DecidableEq

/-- Modelled from the spec: the `MoveBase::attemptMove` scaffold
(spec section 4.3; the bodies of the concrete `attemptMove` overrides in
move.cpp are not among the sources).  Step 1 guards the sector and the
move-specific validity conditions, rejecting early without touching the
path; steps 2-3 record the original state and apply the tentative mutation;
step 4 decides; step 5 commits on accept and reverts via the journal on
reject.  `totAttempted` is incremented exactly once per call and the
accepted counters exactly on acceptance. -/
def attemptMove (m : MoveDef) (p : Path) (c : Counters) : MoveResult :=
  let c1 : Counters := { c with numAttempted := c.numAttempted + 1,
                                totAttempted := c.totAttempted + 1 }
  if sectorOK m.operateOnConfig (sectorOf p) then
    if m.guard p then
      let pr := m.propose p
      let p2 := applyJournal p pr.1
      if pr.2 then
        { accepted := true, path := p2, journal := pr.1,
          counters := { c1 with numAccepted := c1.numAccepted + 1,
                                totAccepted := c1.totAccepted + 1 } }
      else
        { accepted := false, path := undoJournal p2 pr.1, journal := pr.1,
          counters := c1 }
    else
      { accepted := false, path := p, journal := [], counters := c1 }
  else
    { accepted := false, path := p, journal := [], counters := c1 }

/-- Modelled from the spec: a forced `MoveBase::undoMove` after an attempt
(spec section 8, property 1): restore every saved value from the retained
scratch journal. -/
def undoMove (r : MoveResult) : Path := undoJournal r.path r.journal

/-- Claim C1: for every concrete move, whenever `attemptMove` returns
`false`, the `Path` is restored exactly to its state at entry (same link
graph, positions, worm endpoints, bead-on flags, which the `Path` record
comprises), with `numAttempted` incremented and `numAccepted` unchanged;
every invalid condition (wrong sector, guard failure, Metropolis reject)
surfaces as this state-preserving rejection. -/
theorem attemptMove_false_restores (m : MoveDef) (p : Path) (c : Counters)
    (hwf : Wf p (m.propose p).1)
    (hrej : (attemptMove m p c).accepted = false) :
    (attemptMove m p c).path = p ∧
    (attemptMove m p c).counters.numAttempted = c.numAttempted + 1 ∧
    (attemptMove m p c).counters.numAccepted = c.numAccepted := by
  unfold attemptMove at hrej ⊢
  by_cases hs : sectorOK m.operateOnConfig (sectorOf p)
  · by_cases hg : m.guard p
    · by_cases ha : (m.propose p).2
      · simp [hs, hg, ha] at hrej
      · simp [hs, hg, ha, undoJournal_applyJournal p (m.propose p).1 hwf]
    · simp [hs, hg]
  · simp [hs]

/-- Witness for C1: a concrete rejected move with a nonempty journal is
fully rolled back and counted as attempted only. -/
theorem attemptMove_false_restores_witness :
    (attemptMove
        { operateOnConfig := .ANY, guard := fun _ => true,
          propose := fun _ => ([Upd.setPos 0 [0] [5], Upd.setHead none (some 0)], false) }
        { pos := [[0], [1]], nxt := [some 1, some 0], prv := [some 1, some 0],
          beadOn := [true, true], wormHead := none, wormTail := none }
        { numAccepted := 3, numAttempted := 7, totAccepted := 4, totAttempted := 9,
          numAcceptedLevel := [0], numAttemptedLevel := [0] }).path =
      { pos := [[0], [1]], nxt := [some 1, some 0], prv := [some 1, some 0],
        beadOn := [true, true], wormHead := none, wormTail := none } ∧
    (attemptMove
        { operateOnConfig := .ANY, guard := fun _ => true,
          propose := fun _ => ([Upd.setPos 0 [0] [5], Upd.setHead none (some 0)], false) }
        { pos := [[0], [1]], nxt := [some 1, some 0], prv := [some 1, some 0],
          beadOn := [true, true], wormHead := none, wormTail := none }
        { numAccepted := 3, numAttempted := 7, totAccepted := 4, totAttempted := 9,
          numAcceptedLevel := [0], numAttemptedLevel := [0] }).counters.numAttempted = 7 + 1 ∧
    (attemptMove
        { operateOnConfig := .ANY, guard := fun _ => true,
          propose := fun _ => ([Upd.setPos 0 [0] [5], Upd.setHead none (some 0)], false) }
        { pos := [[0], [1]], nxt := [some 1, some 0], prv := [some 1, some 0],
          beadOn := [true, true], wormHead := none, wormTail := none }
        { numAccepted := 3, numAttempted := 7, totAccepted := 4, totAttempted := 9,
          numAcceptedLevel := [0], numAttemptedLevel := [0] }).counters.numAccepted = 3 :=
  attemptMove_false_restores _ _ _ (by decide) (by decide)

/-- Claim C2: for every move and every starting configuration, performing
`attemptMove` and then forcing `undoMove` (regardless of whether the move
was accepted) leaves the `Path` identical to its entry state: same link
graph, same positions, same worm endpoints, same bead-on flags. -/
theorem attemptMove_then_undoMove (m : MoveDef) (p : Path) (c : Counters)
    (hwf : Wf p (m.propose p).1) :
    undoMove (attemptMove m p c) = p := by
  unfold attemptMove undoMove
  by_cases hs : sectorOK m.operateOnConfig (sectorOf p)
  · by_cases hg : m.guard p
    · by_cases ha : (m.propose p).2
      · simp [hs, hg, ha, undoJournal_applyJournal p (m.propose p).1 hwf]
      · simp [hs, hg, ha, undoJournal_applyJournal p (m.propose p).1 hwf,
          undoJournal_self p (m.propose p).1 hwf.1]
    · simp [hs, hg, undoJournal]
  · simp [hs, undoJournal]

/-- Witness for C2: an accepted concrete move, forcibly undone, restores
the entry path. -/
theorem attemptMove_then_undoMove_witness :
    undoMove (attemptMove
        { operateOnConfig := .ANY, guard := fun _ => true,
          propose := fun _ => ([Upd.setPos 1 [1] [9], Upd.setTail none (some 1)], true) }
        { pos := [[0], [1]], nxt := [some 1, some 0], prv := [some 1, some 0],
          beadOn := [true, true], wormHead := none, wormTail := none }
        { numAccepted := 0, numAttempted := 0, totAccepted := 0, totAttempted := 0,
          numAcceptedLevel := [], numAttemptedLevel := [] }) =
      { pos := [[0], [1]], nxt := [some 1, some 0], prv := [some 1, some 0],
        beadOn := [true, true], wormHead := none, wormTail := none } :=
  attemptMove_then_undoMove _ _ _ (by decide)

/-- Claim C3: every `attemptMove` call increments the process-wide
`totAttempted` by exactly 1, and increments `totAccepted` and the
instance's `numAccepted` by 1 when it returns `true` and by 0 when it
returns `false`. -/
theorem attemptMove_counter_discipline (m : MoveDef) (p : Path) (c : Counters) :
    (attemptMove m p c).counters.totAttempted = c.totAttempted + 1 ∧
    (attemptMove m p c).counters.totAccepted =
      (if (attemptMove m p c).accepted then c.totAccepted + 1 else c.totAccepted) ∧
    (attemptMove m p c).counters.numAccepted =
      (if (attemptMove m p c).accepted then c.numAccepted + 1 else c.numAccepted) := by
  unfold attemptMove
  by_cases hs : sectorOK m.operateOnConfig (sectorOf p)
  · by_cases hg : m.guard p
    · by_cases ha : (m.propose p).2
      · simp [hs, hg, ha]
      · simp [hs, hg, ha]
    · simp [hs, hg]
  · simp [hs]

/-- Claim C4: a move whose `operateOnConfig` is DIAGONAL, invoked while the
configuration is in the OFFDIAGONAL sector, always returns `false` and
leaves the `Path` completely unmodified; symmetrically for an OFFDIAGONAL
move invoked in the DIAGONAL sector. -/
theorem attemptMove_sector_gating (m : MoveDef) (p : Path) (c : Counters) :
    (m.operateOnConfig = .DIAGONAL → sectorOf p = .OFFDIAGONAL →
      (attemptMove m p c).accepted = false ∧ (attemptMove m p c).path = p) ∧
    (m.operateOnConfig = .OFFDIAGONAL → sectorOf p = .DIAGONAL →
      (attemptMove m p c).accepted = false ∧ (attemptMove m p c).path = p) := by
  constructor
  · intro hm hp
    have hs : sectorOK m.operateOnConfig (sectorOf p) = false := by
      rw [hm, hp]; rfl
    unfold attemptMove
    simp [hs]
  · intro hm hp
    have hs : sectorOK m.operateOnConfig (sectorOf p) = false := by
      rw [hm, hp]; rfl
    unfold attemptMove
    simp [hs]

/-- Witness for C4: a DIAGONAL-only move in a worm (OFFDIAGONAL)
configuration is rejected untouched, and an OFFDIAGONAL-only move in a
worm-free (DIAGONAL) configuration likewise. -/
theorem attemptMove_sector_gating_witness :
    ((attemptMove
        { operateOnConfig := .DIAGONAL, guard := fun _ => true,
          propose := fun _ => ([], true) }
        { pos := [[0]], nxt := [none], prv := [none], beadOn := [true],
          wormHead := some 0, wormTail := some 0 }
        { numAccepted := 0, numAttempted := 0, totAccepted := 0, totAttempted := 0,
          numAcceptedLevel := [], numAttemptedLevel := [] }).accepted = false ∧
      (attemptMove
        { operateOnConfig := .DIAGONAL, guard := fun _ => true,
          propose := fun _ => ([], true) }
        { pos := [[0]], nxt := [none], prv := [none], beadOn := [true],
          wormHead := some 0, wormTail := some 0 }
        { numAccepted := 0, numAttempted := 0, totAccepted := 0, totAttempted := 0,
          numAcceptedLevel := [], numAttemptedLevel := [] }).path =
        { pos := [[0]], nxt := [none], prv := [none], beadOn := [true],
          wormHead := some 0, wormTail := some 0 }) ∧
    ((attemptMove
        { operateOnConfig := .OFFDIAGONAL, guard := fun _ => true,
          propose := fun _ => ([], true) }
        { pos := [[0]], nxt := [some 0], prv := [some 0], beadOn := [true],
          wormHead := none, wormTail := none }
        { numAccepted := 0, numAttempted := 0, totAccepted := 0, totAttempted := 0,
          numAcceptedLevel := [], numAttemptedLevel := [] }).accepted = false ∧
      (attemptMove
        { operateOnConfig := .OFFDIAGONAL, guard := fun _ => true,
          propose := fun _ => ([], true) }
        { pos := [[0]], nxt := [some 0], prv := [some 0], beadOn := [true],
          wormHead := none, wormTail := none }
        { numAccepted := 0, numAttempted := 0, totAccepted := 0, totAttempted := 0,
          numAcceptedLevel := [], numAttemptedLevel := [] }).path =
        { pos := [[0]], nxt := [some 0], prv := [some 0], beadOn := [true],
          wormHead := none, wormTail := none }) :=
  ⟨(attemptMove_sector_gating _ _ _).1 rfl (by decide),
   (attemptMove_sector_gating _ _ _).2 rfl (by decide)⟩

/-- The concrete move classes declared in move.h (plus the shared
`SwapMoveBase`). -/
inductive MoveClass
  | Displace
  | EndStaging
  | MidStaging
  | SwapBreak
  | CenterOfMass
  | Staging
  | Bisection
  | Open
  | CanonicalOpen
  | Close
  | CanonicalClose
  | Insert
  | Remove
  | AdvanceHead
  | AdvanceTail
  | RecedeHead
  | RecedeTail
  | SwapMoveShared
  | SwapHead
  | SwapTail
deriving DecidableEq

/-- Transcribed from the constructor declarations in move.h: the default
`_operateOnConfig` argument each move class is constructed with
(lines 155-156, 177-178, 201-202, 226-227, 249-250, 273-274, 298-299,
331-332, 359-360, 387-388, 415-416, 442-443, 470-471, 495-496, 529-530,
557-558, 584-585, 611-612, 648-649, 676-677). -/
def defaultOperateOnConfig : MoveClass → Ensemble
  | .Displace => .ANY
  | .EndStaging => .ANY
  | .MidStaging => .ANY
  | .SwapBreak => .ANY
  | .CenterOfMass => .ANY
  | .Staging => .ANY
  | .Bisection => .ANY
  | .Open => .DIAGONAL
  | .CanonicalOpen => .DIAGONAL
  | .Close => .OFFDIAGONAL
  | .CanonicalClose => .OFFDIAGONAL
  | .Insert => .DIAGONAL
  | .Remove => .OFFDIAGONAL
  | .AdvanceHead => .OFFDIAGONAL
  | .AdvanceTail => .OFFDIAGONAL
  | .RecedeHead => .OFFDIAGONAL
  | .RecedeTail => .OFFDIAGONAL
  | .SwapMoveShared => .OFFDIAGONAL
  | .SwapHead => .OFFDIAGONAL
  | .SwapTail => .OFFDIAGONAL

/-- Claim C5: each sector-changing move declares the sector the spec
requires: `OpenMove` (and `CanonicalOpenMove`, `InsertMove`) is constructed
with `operateOnConfig = DIAGONAL`, while `CloseMove` (and
`CanonicalCloseMove`, `RemoveMove`, the four Advance/Recede moves,
`SwapHeadMove`, `SwapTailMove`) is constructed with
`operateOnConfig = OFFDIAGONAL`. -/
theorem sector_changing_defaults :
    defaultOperateOnConfig .Open = .DIAGONAL ∧
    defaultOperateOnConfig .CanonicalOpen = .DIAGONAL ∧
    defaultOperateOnConfig .Insert = .DIAGONAL ∧
    defaultOperateOnConfig .Close = .OFFDIAGONAL ∧
    defaultOperateOnConfig .CanonicalClose = .OFFDIAGONAL ∧
    defaultOperateOnConfig .Remove = .OFFDIAGONAL ∧
    defaultOperateOnConfig .AdvanceHead = .OFFDIAGONAL ∧
    defaultOperateOnConfig .AdvanceTail = .OFFDIAGONAL ∧
    defaultOperateOnConfig .RecedeHead = .OFFDIAGONAL ∧
    defaultOperateOnConfig .RecedeTail = .OFFDIAGONAL ∧
    defaultOperateOnConfig .SwapHead = .OFFDIAGONAL ∧
    defaultOperateOnConfig .SwapTail = .OFFDIAGONAL := by
  decide

/-- From move.h line 235: `SwapBreakMove::undoMove` has an empty body, so
undo is a no-op on the path. -/
def swapBreakUndoMove (p : Path) : Path := p

/-- Modelled from the spec: `SwapBreakMove::attemptMove` (its body, in
move.cpp, is not among the sources).  The move swaps the location of a
broken worldline: a purely topological relinking with no position changes,
and rejection paths never mutate, so the relink journal is applied only on
acceptance (spec section 4.4). -/
def swapBreakAttemptMove (relink : Path → List Upd) (accept : Path → Bool)
    (p : Path) (c : Counters) : Bool × Path × Counters :=
  let c1 : Counters := { c with numAttempted := c.numAttempted + 1,
                                totAttempted := c.totAttempted + 1 }
  if accept p then
    (true, applyJournal p (relink p),
      { c1 with numAccepted := c1.numAccepted + 1,
                totAccepted := c1.totAccepted + 1 })
  else
    (false, p, c1)

/-- Claim C6: `SwapBreakMove` never mutates the path on a rejection path,
so its `undoMove` is a no-op and a rejected SwapBreak attempt leaves the
link graph, link count and worm endpoints (the whole `Path` record) exactly
as at entry. -/
theorem swapBreak_reject_no_mutation (relink : Path → List Upd)
    (accept : Path → Bool) (p : Path) (c : Counters)
    (hrej : (swapBreakAttemptMove relink accept p c).1 = false) :
    (∀ q : Path, swapBreakUndoMove q = q) ∧
    (swapBreakAttemptMove relink accept p c).2.1 = p := by
  refine ⟨fun _ => rfl, ?_⟩
  unfold swapBreakAttemptMove at hrej ⊢
  by_cases ha : accept p
  · simp [ha] at hrej
  · simp [ha]

/-- Witness for C6: a concrete rejected SwapBreak attempt leaves a concrete
path untouched. -/
theorem swapBreak_reject_no_mutation_witness :
    swapBreakUndoMove
      { pos := [[0], [1]], nxt := [some 1, some 0], prv := [some 1, some 0],
        beadOn := [true, true], wormHead := some 0, wormTail := some 1 } =
      { pos := [[0], [1]], nxt := [some 1, some 0], prv := [some 1, some 0],
        beadOn := [true, true], wormHead := some 0, wormTail := some 1 } ∧
    (swapBreakAttemptMove (fun _ => [Upd.setNxt 0 (some 1) (some 0)]) (fun _ => false)
      { pos := [[0], [1]], nxt := [some 1, some 0], prv := [some 1, some 0],
        beadOn := [true, true], wormHead := some 0, wormTail := some 1 }
      { numAccepted := 0, numAttempted := 0, totAccepted := 0, totAttempted := 0,
        numAcceptedLevel := [], numAttemptedLevel := [] }).2.1 =
      { pos := [[0], [1]], nxt := [some 1, some 0], prv := [some 1, some 0],
        beadOn := [true, true], wormHead := some 0, wormTail := some 1 } :=
  ⟨(swapBreak_reject_no_mutation (fun _ => [Upd.setNxt 0 (some 1) (some 0)])
      (fun _ => false)
      { pos := [[0], [1]], nxt := [some 1, some 0], prv := [some 1, some 0],
        beadOn := [true, true], wormHead := some 0, wormTail := some 1 }
      { numAccepted := 0, numAttempted := 0, totAccepted := 0, totAttempted := 0,
        numAcceptedLevel := [], numAttemptedLevel := [] } (by decide)).1 _,
   (swapBreak_reject_no_mutation (fun _ => [Upd.setNxt 0 (some 1) (some 0)])
      (fun _ => false)
      { pos := [[0], [1]], nxt := [some 1, some 0], prv := [some 1, some 0],
        beadOn := [true, true], wormHead := some 0, wormTail := some 1 }
      { numAccepted := 0, numAttempted := 0, totAccepted := 0, totAttempted := 0,
        numAcceptedLevel := [], numAttemptedLevel := [] } (by decide)).2⟩

/-- The RNG (`MTRand`) consumed through `rand()` / `randNorm` (spec
section 6), modelled as a stream of rational draws; each consumed draw
advances the state. -/
structure MTRand where
  stream : List ℚ
deriving DecidableEq

/-- Consume one draw (the empty stream yields 0 and stays put). -/
def MTRand.next (r : MTRand) : ℚ × MTRand :=
  match r.stream with
  | [] => (0, { stream := [] })
  | x :: xs => (x, { stream := xs })

/-- Consume `n` draws, forming a vector. -/
def drawVec : Nat → MTRand → dVec × MTRand
  | 0, r => ([], r)
  | Nat.succ n, r =>
      let xr := r.next
      let rest := drawVec n xr.2
      (xr.1 :: rest.1, rest.2)

/-- Componentwise vector sum. -/
def vadd (a b : dVec) : dVec := (a.zip b).map (fun q => q.1 + q.2)

/-- Componentwise vector difference. -/
def vsub (a b : dVec) : dVec := (a.zip b).map (fun q => q.1 - q.2)

/-- Scale a vector by a constant. -/
def vscale (c : ℚ) (a : dVec) : dVec := a.map (fun x => c * x)

/-- The periodic-image reduction `Path::boxPut` (spec section 3):
componentwise, shift by the integer multiple of the box side nearest to
the coordinate. -/
def boxPut (box : dVec) (r : dVec) : dVec :=
  (box.zip r).map (fun q => q.2 - q.1 * ((round (q.2 / q.1) : ℤ) : ℚ))

/-- Walk the `next` links of the path `n` steps from bead `b`. -/
def walkNext (p : Path) : Nat → Nat → Option Nat
  | b, 0 => some b
  | b, Nat.succ n =>
      match p.nxt.getD b none with
      | none => none
      | some b2 => walkNext p b2 n

/-- Walk the `prev` links of the path `n` steps from bead `b`. -/
def walkPrev (p : Path) : Nat → Nat → Option Nat
  | b, 0 => some b
  | b, Nat.succ n =>
      match p.prv.getD b none with
      | none => none
      | some b2 => walkPrev p b2 n

/-- Modelled from the spec: `MoveBase::newStagingPosition` (its body, in
move.cpp, is not among the sources; spec section 4.1).  Given the
previously sampled bead, the eventual end bead, the stage length `L` and
the remaining index `k`, the next bead is conditioned on a Gaussian
Brownian bridge: mean `r0 + Δ/(L−k+1)` with `Δ` the periodic-image delta,
variance `2Λτ·(L−k)/(L−k+1)`.  The realized Gaussian draw is the next RNG
vector scaled by the variance parameter (the standard deviation is not
rational-representable).  The sampler returns the sampled position, the
advanced RNG, and the path, which it never mutates. -/
def newStagingPosition (p : Path) (box : dVec) (twoLambdaTau : ℚ)
    (prevSampled endBead : Nat) (L k : Nat) (r : MTRand) :
    dVec × MTRand × Path :=
  let r0 := p.pos.getD prevSampled []
  let r1 := p.pos.getD endBead []
  let delta := boxPut box (vsub r1 r0)
  let mu := vadd r0 (vscale (1 / ((L : ℚ) - (k : ℚ) + 1)) delta)
  let var := twoLambdaTau * ((L : ℚ) - (k : ℚ)) / ((L : ℚ) - (k : ℚ) + 1)
  let dr := drawVec r0.length r
  (boxPut box (vadd mu (vscale var dr.1)), dr.2, p)

/-- Modelled from the spec: `MoveBase::newFreeParticlePosition` (its body,
in move.cpp, is not among the sources; spec section 4.1): an unbridged
Gaussian step of width `sqrt(2Λτ)` centered on the predecessor bead's
position, the realized draw scaled by the variance parameter as above.
Returns the position, the advanced RNG, and the path, never mutated. -/
def newFreeParticlePosition (p : Path) (box : dVec) (twoLambdaTau : ℚ)
    (prevBead : Nat) (r : MTRand) : dVec × MTRand × Path :=
  let rp := p.pos.getD prevBead []
  let dr := drawVec rp.length r
  (boxPut box (vadd rp (vscale twoLambdaTau dr.1)), dr.2, p)

/-- Modelled from the spec: `MoveBase::newBisectionPosition` (its body, in
move.cpp, is not among the sources; spec section 4.1): the midpoint
construction between the beads `shift` slices back and forward, mean the
midpoint of the periodic-corrected endpoints, variance `Λτ·shift`.
Returns the position, the advanced RNG, and the path, never mutated. -/
def newBisectionPosition (p : Path) (box : dVec) (lambdaTau : ℚ)
    (b : Nat) (shift : Nat) (r : MTRand) : dVec × MTRand × Path :=
  let bp := (walkPrev p b shift).getD b
  let bn := (walkNext p b shift).getD b
  let rp := p.pos.getD bp []
  let rn := p.pos.getD bn []
  let mid := vadd rp (vscale (1 / 2) (boxPut box (vsub rn rp)))
  let var := lambdaTau * (shift : ℚ)
  let dr := drawVec rp.length r
  (boxPut box (vadd mid (vscale var dr.1)), dr.2, p)

/-- Claim C7: the free-particle bridge samplers `newStagingPosition`,
`newBisectionPosition` and `newFreeParticlePosition` are pure functions of
the RNG state and their inputs: no field of the `Path` (positions, links,
worm endpoints, bead flags) is modified by any call. -/
theorem samplers_do_not_mutate_path (p : Path) (box : dVec)
    (twoLambdaTau lambdaTau : ℚ) (prevSampled endBead L k b shift : Nat)
    (r : MTRand) :
    (newStagingPosition p box twoLambdaTau prevSampled endBead L k r).2.2 = p ∧
    (newFreeParticlePosition p box twoLambdaTau b r).2.2 = p ∧
    (newBisectionPosition p box lambdaTau b shift r).2.2 = p :=
  ⟨rfl, rfl, rfl⟩

/-- Running prefix sums with a given initial accumulator (the construction
behind the tower-sampling array `cumrho0`). -/
def scanSum (acc : ℚ) : List ℚ → List ℚ
  | [] => []
  | x :: xs => (acc + x) :: scanSum (acc + x) xs

/-- Modelled from the spec: `MoveBase::sampleWindingSector` (its body, in
move.cpp, is not among the sources; spec section 4.2).  Given the kinetic
weights `ρ₀(w)` computed for each winding image and the uniform draw `u`,
build `cumrho0[i] = Σ_{j≤i} ρ₀(w_j) / Σ_j ρ₀(w_j)` and tower-sample the
image index.  When all the weights underflow to zero, the sampler signals
failure to the caller (which rejects) instead of producing a malformed
CDF. -/
def sampleWindingSector (rho : List ℚ) (u : ℚ) : Option (List ℚ × Nat) :=
  let tot := rho.sum
  if tot = 0 then none
  else
    let cumrho0 := (scanSum 0 rho).map (fun x => x / tot)
    some (cumrho0, cumrho0.findIdx (fun cq => decide (u < cq)))

theorem scanSum_ne_nil (acc : ℚ) (x : ℚ) (xs : List ℚ) :
    scanSum acc (x :: xs) ≠ [] := by
  simp [scanSum]

theorem scanSum_getLast (acc : ℚ) :
    ∀ l : List ℚ, l ≠ [] → (scanSum acc l).getLast? = some (acc + l.sum) := by
  intro l
  induction l generalizing acc with
  | nil => intro h; exact absurd rfl h
  | cons x xs ih =>
      intro _
      cases xs with
      | nil => simp [scanSum]
      | cons y ys =>
          have h2 := ih (acc + x) (by simp)
          rw [show scanSum acc (x :: y :: ys) =
              (acc + x) :: scanSum (acc + x) (y :: ys) from rfl]
          rw [show scanSum (acc + x) (y :: ys) =
              (acc + x + y) :: scanSum (acc + x + y) ys from rfl]
          rw [List.getLast?_cons_cons]
          rw [show scanSum (acc + x) (y :: ys) =
              (acc + x + y) :: scanSum (acc + x + y) ys from rfl] at h2
          rw [h2]
          simp only [List.sum_cons, Option.some.injEq]
          ring

theorem scanSum_head (acc x : ℚ) (xs : List ℚ) :
    (scanSum acc (x :: xs)).head? = some (acc + x) := by
  simp [scanSum]

theorem scanSum_chain (acc : ℚ) :
    ∀ l : List ℚ, (∀ x ∈ l, 0 ≤ x) → List.Chain' (· ≤ ·) (scanSum acc l) := by
  intro l
  induction l generalizing acc with
  | nil => intro _; simp [scanSum]
  | cons x xs ih =>
      intro hnn
      have htl : List.Chain' (· ≤ ·) (scanSum (acc + x) xs) :=
        ih (acc + x) (fun y hy => hnn y (List.mem_cons_of_mem x hy))
      rw [show scanSum acc (x :: xs) = (acc + x) :: scanSum (acc + x) xs from rfl]
      rw [List.chain'_cons']
      refine ⟨?_, htl⟩
      intro b hb
      cases xs with
      | nil => simp [scanSum] at hb
      | cons y ys =>
          rw [scanSum_head] at hb
          simp at hb
          have hy : 0 ≤ y := hnn y (by simp)
          linarith [hb]

theorem chain_map_div (tot : ℚ) (htot : 0 < tot) :
    ∀ l : List ℚ, List.Chain' (· ≤ ·) l →
      List.Chain' (· ≤ ·) (l.map (fun x => x / tot)) := by
  intro l hl
  exact List.chain'_map_of_chain' (fun x => x / tot)
    (fun a b hab => (div_le_div_iff_of_pos_right htot).mpr hab) hl

/-- Claim C8: after every successful call to `sampleWindingSector`, the
`cumrho0` array is monotone nondecreasing with its last entry within
`1e-12` of 1 (here it is exactly 1); when all the winding weights underflow
to zero, the sampler signals failure to the caller instead of producing a
malformed CDF. -/
theorem sampleWindingSector_cdf (rho : List ℚ) (u : ℚ)
    (hnn : ∀ x ∈ rho, 0 ≤ x) :
    (∀ cum k, sampleWindingSector rho u = some (cum, k) →
      List.Chain' (· ≤ ·) cum ∧
      ∀ x, cum.getLast? = some x →
        1 - 1 / 1000000000000 ≤ x ∧ x ≤ 1 + 1 / 1000000000000) ∧
    ((∀ x ∈ rho, x = 0) → sampleWindingSector rho u = none) := by
  constructor
  · intro cum k hsome
    unfold sampleWindingSector at hsome
    by_cases htot : rho.sum = 0
    · simp [htot] at hsome
    · simp only [htot, if_neg, ite_false] at hsome
      have hpos : 0 < rho.sum :=
        lt_of_le_of_ne (List.sum_nonneg hnn) (Ne.symm htot)
      have hcum : cum = (scanSum 0 rho).map (fun x => x / rho.sum) := by
        have := hsome.symm
        injection hsome with h1
        injection h1 with h2 _
        exact h2.symm
      constructor
      · rw [hcum]
        exact chain_map_div rho.sum hpos _ (scanSum_chain 0 rho hnn)
      · intro x hx
        have hne : rho ≠ [] := by
          intro hEq
          rw [hEq] at htot
          simp at htot
        have hlast : (scanSum 0 rho).getLast? = some rho.sum := by
          rw [scanSum_getLast 0 rho hne]
          simp
        have : cum.getLast? = some (rho.sum / rho.sum) := by
          rw [hcum, List.getLast?_map, hlast]
          rfl
        rw [this] at hx
        rw [div_self htot] at hx
        injection hx with hx1
        rw [← hx1]
        norm_num
  · intro hz
    have : rho.sum = 0 := List.sum_eq_zero hz
    unfold sampleWindingSector
    simp [this]

/-- Witness for C8: for the concrete weights `[1/4, 0, 3/4]` and draw
`1/2` the sampler returns the CDF `[1/4, 1/4, 1]`, which is monotone with
last entry 1; for all-zero weights it fails. -/
theorem sampleWindingSector_cdf_witness :
    List.Chain' (· ≤ ·) [(1 : ℚ)/4, 1/4, 1] ∧
    (1 : ℚ) - 1 / 1000000000000 ≤ 1 ∧ (1 : ℚ) ≤ 1 + 1 / 1000000000000 ∧
    sampleWindingSector [(0 : ℚ), 0] (1/2) = none := by
  have hcomp : sampleWindingSector [(1 : ℚ)/4, 0, 3/4] (1/2) =
      some ([(1 : ℚ)/4, 1/4, 1], 2) := by
    norm_num [sampleWindingSector, scanSum, List.findIdx, List.findIdx.go]
  have h := sampleWindingSector_cdf [(1 : ℚ)/4, 0, 3/4] (1/2) (by norm_num)
  have h1 := h.1 [(1 : ℚ)/4, 1/4, 1] 2 hcomp
  have h2 := h1.2 1 (by norm_num)
  have h3 := sampleWindingSector_cdf [(0 : ℚ), 0] (1/2) (by norm_num)
  exact ⟨h1.1, h2.1, h2.2, h3.2 (by norm_num)⟩

/-- From move.h lines 44-47: the acceptance ratio, `0.0` when no move was
attempted and `numAccepted / numAttempted` otherwise. -/
def getAcceptanceRatio (c : Counters) : ℚ :=
  if c.numAttempted = 0 then 0
  else (c.numAccepted : ℚ) / (c.numAttempted : ℚ)

/-- From move.h lines 49-52: the total acceptance ratio over the
process-wide counters. -/
def getTotAcceptanceRatio (c : Counters) : ℚ :=
  if c.totAttempted = 0 then 0
  else (c.totAccepted : ℚ) / (c.totAttempted : ℚ)

/-- From move.h lines 54-58: the acceptance ratio at bisection level `n`,
reading the level-resolved counter arrays. -/
def getAcceptanceRatioLevel (c : Counters) (n : Nat) : ℚ :=
  if c.numAttemptedLevel.getD n 0 = 0 then 0
  else (c.numAcceptedLevel.getD n 0 : ℚ) / (c.numAttemptedLevel.getD n 0 : ℚ)

/-- Claim C9: the diagnostic accessors never divide by zero:
`getAcceptanceRatio` returns 0 when `numAttempted = 0` and
`numAccepted / numAttempted` otherwise; `getTotAcceptanceRatio` returns 0
when `totAttempted = 0`; `getAcceptanceRatioLevel n` returns 0 when the
level-`n` attempted counter is 0. -/
theorem acceptance_ratios_guard_zero (c : Counters) (n : Nat) :
    (c.numAttempted = 0 → getAcceptanceRatio c = 0) ∧
    (c.numAttempted ≠ 0 →
      getAcceptanceRatio c = (c.numAccepted : ℚ) / (c.numAttempted : ℚ)) ∧
    (c.totAttempted = 0 → getTotAcceptanceRatio c = 0) ∧
    (c.totAttempted ≠ 0 →
      getTotAcceptanceRatio c = (c.totAccepted : ℚ) / (c.totAttempted : ℚ)) ∧
    (c.numAttemptedLevel.getD n 0 = 0 → getAcceptanceRatioLevel c n = 0) ∧
    (c.numAttemptedLevel.getD n 0 ≠ 0 →
      getAcceptanceRatioLevel c n =
        (c.numAcceptedLevel.getD n 0 : ℚ) / (c.numAttemptedLevel.getD n 0 : ℚ)) := by
  unfold getAcceptanceRatio getTotAcceptanceRatio getAcceptanceRatioLevel
  exact ⟨fun h => if_pos h, fun h => if_neg h, fun h => if_pos h,
    fun h => if_neg h, fun h => if_pos h, fun h => if_neg h⟩

/-- Witness for C9: a fresh move instance (zero counters) reports ratio 0
at each accessor, and a seasoned one reports the exact quotient. -/
theorem acceptance_ratios_guard_zero_witness :
    getAcceptanceRatio
      { numAccepted := 0, numAttempted := 0, totAccepted := 0, totAttempted := 0,
        numAcceptedLevel := [], numAttemptedLevel := [] } = 0 ∧
    getTotAcceptanceRatio
      { numAccepted := 0, numAttempted := 0, totAccepted := 0, totAttempted := 0,
        numAcceptedLevel := [], numAttemptedLevel := [] } = 0 ∧
    getAcceptanceRatioLevel
      { numAccepted := 0, numAttempted := 0, totAccepted := 0, totAttempted := 0,
        numAcceptedLevel := [], numAttemptedLevel := [] } 0 = 0 ∧
    getAcceptanceRatio
      { numAccepted := 3, numAttempted := 4, totAccepted := 5, totAttempted := 8,
        numAcceptedLevel := [2], numAttemptedLevel := [6] } = (3 : ℚ) / 4 := by
  refine ⟨(acceptance_ratios_guard_zero
      { numAccepted := 0, numAttempted := 0, totAccepted := 0, totAttempted := 0,
        numAcceptedLevel := [], numAttemptedLevel := [] } 0).1 rfl,
    (acceptance_ratios_guard_zero
      { numAccepted := 0, numAttempted := 0, totAccepted := 0, totAttempted := 0,
        numAcceptedLevel := [], numAttemptedLevel := [] } 0).2.2.1 rfl,
    (acceptance_ratios_guard_zero
      { numAccepted := 0, numAttempted := 0, totAccepted := 0, totAttempted := 0,
        numAcceptedLevel := [], numAttemptedLevel := [] } 0).2.2.2.2.1 rfl,
    ?_⟩
  have h := (acceptance_ratios_guard_zero
      { numAccepted := 3, numAttempted := 4, totAccepted := 5, totAttempted := 8,
        numAcceptedLevel := [2], numAttemptedLevel := [6] } 0).2.1 (by decide)
  simpa using h

/-- The three possible states of a parameter (setup.h line 18). -/
inductive ParamState
  | UNSET
  | DEFAULTED
  | SET
deriving DecidableEq

/-- Parameter values: the per-type `boost` storage is modelled by a single
value type (the claims are type-agnostic). -/
abbrev PVal := String

/-- Look up a key in an association list (the first matching entry), the
behaviour of the `std::map` / `variables_map` lookups. -/
def alLookup {α : Type} : List (String × α) → String → Option α
  | [], _ => none
  | kv :: rest, k => if kv.1 = k then some kv.2 else alLookup rest k

/-- Replace the value stored at an existing key, leaving the list unchanged
when the key is absent (the `v.value() = val` path of the value
overload). -/
def alUpdate {α : Type} : List (String × α) → String → α → List (String × α)
  | [], _, _ => []
  | kv :: rest, k, v => if kv.1 = k then (k, v) :: rest else kv :: alUpdate rest k v

/-- `std::map` subscript assignment: update in place, inserting when
absent. -/
def alSet {α : Type} (l : List (String × α)) (k : String) (v : α) :
    List (String × α) :=
  if (alLookup l k).isSome then alUpdate l k v else l ++ [(k, v)]

/-- The `Parameters` container of setup.h lines 46-117, restricted to the
fields the `set` overloads touch: the stored values (`params`, where `none`
models an empty `po::variable_value`) and the parameter states (`state`).
The `type` and `extract` bookkeeping the value overload also inserts is not
modelled (the claim does not concern it). -/
structure Parameters where
  params : List (String × Option PVal)
  state : List (String × ParamState)
deriving DecidableEq

/-- From setup.h lines 193-213: `Parameters::set` from a value.  If the key
is present in `params` the stored value is overwritten in place; otherwise
a fresh entry is inserted.  Either way the parameter state becomes SET. -/
def Parameters.setValue (P : Parameters) (key : String) (val : PVal) :
    Parameters :=
  let P1 :=
    if (alLookup P.params key).isSome then
      { P with params := alUpdate P.params key (some val) }
    else
      { P with params := P.params ++ [(key, some val)] }
  { P1 with state := alSet P1.state key .SET }

/-- From setup.h lines 221-231: `Parameters::set` from an xml node.  When
the node lacks the key, nothing happens.  Otherwise the command line
overrides the xml file: the stored value is updated only when the state is
UNSET or DEFAULTED (an absent state entry reads as the default-constructed
UNSET), after which the state is SET. -/
def Parameters.setXml (P : Parameters) (key : String)
    (xml : List (String × PVal)) : Parameters :=
  match alLookup xml key with
  | none => P
  | some v =>
      let st := (alLookup P.state key).getD .UNSET
      if st = .UNSET ∨ st = .DEFAULTED then
        let P1 := P.setValue key v
        { P1 with state := alSet P1.state key .SET }
      else
        P

theorem alLookup_alUpdate_same {α : Type} :
    ∀ (l : List (String × α)) (k : String) (v : α),
      (alLookup l k).isSome → alLookup (alUpdate l k v) k = some v := by
  intro l
  induction l with
  | nil => intro k v h; simp [alLookup] at h
  | cons kv rest ih =>
      intro k v h
      by_cases hk : kv.1 = k
      · simp [alUpdate, hk, alLookup]
      · simp [alLookup, hk] at h
        simp [alUpdate, hk, alLookup, ih k v h]

theorem alLookup_append_of_none {α : Type} :
    ∀ (l m : List (String × α)) (k : String),
      alLookup l k = none → alLookup (l ++ m) k = alLookup m k := by
  intro l
  induction l with
  | nil => intro m k _; rfl
  | cons kv rest ih =>
      intro m k h
      by_cases hk : kv.1 = k
      · simp [alLookup, hk] at h
      · simp [alLookup, hk] at h ⊢
        exact ih m k h

theorem alLookup_alSet_same {α : Type} (l : List (String × α)) (k : String)
    (v : α) : alLookup (alSet l k v) k = some v := by
  unfold alSet
  by_cases h : (alLookup l k).isSome
  · simp [h, alLookup_alUpdate_same l k v h]
  · have hn : alLookup l k = none := by
      cases hc : alLookup l k
      · rfl
      · rw [hc] at h; simp at h
    simp [h, alLookup_append_of_none l [(k, v)] k hn, alLookup]

theorem parameters_setValue_params (P : Parameters) (key : String) (v : PVal) :
    alLookup (P.setValue key v).params key = some (some v) := by
  unfold Parameters.setValue
  by_cases h : (alLookup P.params key).isSome
  · simp [h, alLookup_alUpdate_same P.params key (some v) h]
  · have hn : alLookup P.params key = none := by
      cases hc : alLookup P.params key
      · rfl
      · rw [hc] at h; simp at h
    simp [h, alLookup_append_of_none P.params [(key, some v)] key hn, alLookup]

/-- Claim C10: `Parameters::set(key, xml)` updates the stored value only
when the parameter's state is UNSET or DEFAULTED — a value SET from the
command line is never overridden by the xml file — and after any successful
set, from a value or from xml, the parameter's state is SET. -/
theorem parameters_set_respects_state (P : Parameters) (key : String)
    (v : PVal) (xml : List (String × PVal)) :
    (alLookup P.state key = some .SET → P.setXml key xml = P) ∧
    (∀ w, alLookup xml key = some w →
      (alLookup P.state key).getD .UNSET ≠ .SET →
      alLookup (P.setXml key xml).params key = some (some w) ∧
      alLookup (P.setXml key xml).state key = some .SET) ∧
    (alLookup (P.setValue key v).state key = some .SET) := by
  refine ⟨?_, ?_, ?_⟩
  · intro hset
    unfold Parameters.setXml
    cases hx : alLookup xml key
    · rfl
    · simp only [hset, Option.getD_some]
      rw [if_neg (by simp)]
  · intro w hx hne
    have hcond : ((alLookup P.state key).getD .UNSET = ParamState.UNSET ∨
        (alLookup P.state key).getD .UNSET = ParamState.DEFAULTED) := by
      cases hst : (alLookup P.state key).getD .UNSET
      · exact Or.inl rfl
      · exact Or.inr rfl
      · exact absurd hst hne
    constructor
    · unfold Parameters.setXml
      rw [hx]
      simp only [hcond, if_pos]
      exact parameters_setValue_params P key w
    · unfold Parameters.setXml
      rw [hx]
      simp only [hcond, if_pos]
      exact alLookup_alSet_same _ key ParamState.SET
  · unfold Parameters.setValue
    exact alLookup_alSet_same _ key ParamState.SET

/-- Witness for C10: a concrete map where `na` was SET on the command line
survives an xml set untouched, a DEFAULTED `ta` is overridden by the xml
value and ends SET, and a plain value set reports state SET. -/
theorem parameters_set_respects_state_witness :
    Parameters.setXml
      { params := [("na", some "4")], state := [("na", ParamState.SET)] }
      "na" [("na", "9")] =
      { params := [("na", some "4")], state := [("na", ParamState.SET)] } ∧
    alLookup (Parameters.setXml
      { params := [("ta", some "1")], state := [("ta", ParamState.DEFAULTED)] }
      "ta" [("ta", "2")]).params "ta" = some (some "2") ∧
    alLookup (Parameters.setXml
      { params := [("ta", some "1")], state := [("ta", ParamState.DEFAULTED)] }
      "ta" [("ta", "2")]).state "ta" = some ParamState.SET ∧
    alLookup (Parameters.setValue
      { params := [], state := [] } "mu" "0.5").state "mu" = some ParamState.SET := by
  have hA := parameters_set_respects_state
      { params := [("na", some "4")], state := [("na", ParamState.SET)] }
      "na" "0" [("na", "9")]
  have hB := parameters_set_respects_state
      { params := [("ta", some "1")], state := [("ta", ParamState.DEFAULTED)] }
      "ta" "0" [("ta", "2")]
  have hC := parameters_set_respects_state
      { params := [], state := [] } "mu" "0.5" []
  have hB2 := hB.2.1 "2" (by decide) (by decide)
  exact ⟨hA.1 (by decide), hB2.1, hB2.2, hC.2.2⟩

end PIMC
